import Mathlib

/-!
Verification of the predicate-evaluation core of the sase-parser repository
(`src/query/predicate.go`, package `query`).

The file shallowly embeds the Go code: `operatorPredicate`, its `Evaluate`,
`QueryText` and `usedAliases` methods, and the helper `leftRightVals`.
Collaborating types that the Go file references but whose definitions live
outside the embedded source (`value`, `domain.CapturedEvents`, `domain.Event`,
`ErrEventNotFound`) are modelled from the specification, as noted on each
definition.
-/

namespace Sase

/-- Modelled from the spec: runtime float64 values as used by the ordering
operators. Only comparison behaviour (`==`, `<`, `>`, `<=`, `>=`) is
observable in the embedded code, so a float64 is modelled by its comparison
class: NaN, negative infinity, positive infinity, or a finite value (a
rational; `+0.0` and `-0.0` compare equal under every operator and therefore
share the class `fin 0`). -/
inductive F64 where
  | nan
  | negInf
  | posInf
  | fin (q : ℚ)
deriving DecidableEq, Repr

/-- Whether a float64 comparison class is NaN. -/
def F64.isNaN : F64 → Bool
  | .nan => true
  | _ => false

/-- IEEE-754 `<` on float64: any comparison involving NaN is false;
otherwise `-inf < fin q < +inf` with finite values ordered as rationals. -/
def F64.lt : F64 → F64 → Bool
  | .nan, _ => false
  | _, .nan => false
  | .negInf, .negInf => false
  | .negInf, _ => true
  | _, .negInf => false
  | .posInf, _ => false
  | _, .posInf => true
  | .fin a, .fin b => a < b

/-- IEEE-754 `==` on float64: NaN is not equal to anything, itself included. -/
def F64.beq : F64 → F64 → Bool
  | .nan, _ => false
  | _, .nan => false
  | .negInf, .negInf => true
  | .posInf, .posInf => true
  | .fin a, .fin b => a == b
  | _, _ => false

/-- IEEE-754 `>` on float64 (`a > b` iff `b < a`). -/
def F64.gt (a b : F64) : Bool := F64.lt b a

/-- IEEE-754 `<=` on float64 (`a <= b` iff `a < b` or `a == b`;
false whenever either side is NaN). -/
def F64.le (a b : F64) : Bool := F64.lt a b || F64.beq a b

/-- IEEE-754 `>=` on float64 (`a >= b` iff `b <= a`). -/
def F64.ge (a b : F64) : Bool := F64.le b a

/-- Modelled from the spec: the dynamic runtime values (`interface` values)
that value expressions resolve to — a closed tagged union of nil, float64,
string and boolean scalars, with composite values (slices, nested structures)
modelled as pairs of components terminated by `null`. -/
inductive GoValue where
  | null
  | float (f : F64)
  | str (s : String)
  | boolean (b : Bool)
  | arr (head tail : GoValue)
deriving DecidableEq, Repr

/-- `reflect.DeepEqual` on modelled runtime values: values of distinct kinds
are never deeply equal; floats are compared with IEEE `==` (so NaN is not
deeply equal to itself); composites are compared component-wise. -/
def deepEqual : GoValue → GoValue → Bool
  | .null, .null => true
  | .float a, .float b => F64.beq a b
  | .str a, .str b => a == b
  | .boolean a, .boolean b => a == b
  | .arr h₁ t₁, .arr h₂ t₂ => deepEqual h₁ h₂ && deepEqual t₁ t₂
  | _, _ => false

/-- Whether a runtime value contains a NaN float anywhere inside it. -/
def GoValue.hasNaN : GoValue → Bool
  | .float f => f.isNaN
  | .arr h t => h.hasNaN || t.hasNaN
  | _ => false

/-- Modelled from the spec: the error taxonomy of operand resolution — the
distinguished "event not found" condition (an unbound alias), and every
other (generic, reportable) failure carrying a message. -/
inductive EvalError where
  | eventNotFound
  | generic (msg : String)
deriving DecidableEq, Repr

/-- Modelled from the spec: the distinguished error value `ErrEventNotFound`
returned when a referenced alias has no captured event yet. -/
def ErrEventNotFound : EvalError := EvalError.eventNotFound

/-- Modelled from the spec: a captured event, a bag of named fields holding
runtime values. -/
abbrev Event : Type := List (String × GoValue)

/-- Modelled from the spec: `domain.CapturedEvents`, the alias → event
binding of a candidate match, read-only for the evaluation subsystem. -/
abbrev CapturedEvents : Type := List (String × Event)

/-- Alias lookup in a binding; `none` means the alias has no event yet. -/
def CapturedEvents.find (evs : CapturedEvents) (a : String) : Option Event :=
  List.lookup a evs

/-- Modelled from the spec: the `value` interface — a value expression is a
capability set: resolve against a binding to a runtime value or fail
(`Value`), render as query text (`QueryText`), and report the aliases it
reads (`usedAliases`). An arbitrary structure of these three capabilities
models an arbitrary implementation of the Go interface. -/
structure value where
  Value : CapturedEvents → Except EvalError GoValue
  QueryText : String
  usedAliases : List String

/-- `leftRightVals` from `predicate.go`: report a generic error if either
operand is nil, otherwise resolve the left operand and then the right,
returning the first error encountered or both resolved values. -/
def leftRightVals (evs : CapturedEvents) (left right : Option value) :
    Except EvalError (GoValue × GoValue) :=
  match left, right with
  | some l, some r =>
    match l.Value evs with
    | .error err => .error err
    | .ok leftVal =>
      match r.Value evs with
      | .error err => .error err
      | .ok rightVal => .ok (leftVal, rightVal)
  | _, _ => .error (EvalError.generic "Left and right must not be nil")

/-- `PredicateResult` from `predicate.go`: the closed three-valued outcome
of evaluating a predicate. -/
inductive PredicateResult where
  | Positive
  | Negative
  | Uncertain
deriving DecidableEq, Repr

/-- `PredicateResultPositive`: a positive event match. -/
def PredicateResultPositive : PredicateResult := PredicateResult.Positive

/-- `PredicateResultNegative`: a negative event match. -/
def PredicateResultNegative : PredicateResult := PredicateResult.Negative

/-- `PredicateResultUncertain`: not decidable with the events captured so
far. -/
def PredicateResultUncertain : PredicateResult := PredicateResult.Uncertain

/-- The `op` type from `predicate.go`: a `uint8` whose named constants are
the six comparison operators; values outside `0..5` are representable and
hit the `default` branches of the Go switches. -/
abbrev op := Nat

/-- Operator constant `opEq` (`==`). -/
def opEq : op := 0

/-- Operator constant `opNe` (`!=`). -/
def opNe : op := 1

/-- Operator constant `opGt` (`>`). -/
def opGt : op := 2

/-- Operator constant `opLt` (`<`). -/
def opLt : op := 3

/-- Operator constant `opGe` (`>=`). -/
def opGe : op := 4

/-- Operator constant `opLe` (`<=`). -/
def opLe : op := 5

/-- `operatorPredicate` from `predicate.go`: a binary comparison between two
value expressions. The operand fields are Go interface values and may be
nil, hence `Option`. -/
structure operatorPredicate where
  left : Option value
  right : Option value
  op : op

/-- `operatorPredicate.Evaluate` from `predicate.go`: resolve both operands
with `leftRightVals`; `ErrEventNotFound` yields `Uncertain`, any other error
yields `Negative`; otherwise dispatch on the operator — `==`/`!=` by
`reflect.DeepEqual`, the four ordering operators only on float64 operands
(anything else yields `Negative`), and an unhandled operator value yields
`Negative`. -/
def operatorPredicate.Evaluate (p : operatorPredicate) (evs : CapturedEvents) :
    PredicateResult :=
  match leftRightVals evs p.left p.right with
  | .error .eventNotFound => PredicateResultUncertain
  | .error _ => PredicateResultNegative
  | .ok (leftVal, rightVal) =>
    match p.op with
    | 0 =>
      if deepEqual leftVal rightVal then PredicateResultPositive
      else PredicateResultNegative
    | 1 =>
      if !deepEqual leftVal rightVal then PredicateResultPositive
      else PredicateResultNegative
    | 2 =>
      match leftVal, rightVal with
      | .float l, .float r =>
        if F64.gt l r then PredicateResultPositive else PredicateResultNegative
      | _, _ => PredicateResultNegative
    | 3 =>
      match leftVal, rightVal with
      | .float l, .float r =>
        if F64.lt l r then PredicateResultPositive else PredicateResultNegative
      | _, _ => PredicateResultNegative
    | 4 =>
      match leftVal, rightVal with
      | .float l, .float r =>
        if F64.ge l r then PredicateResultPositive else PredicateResultNegative
      | _, _ => PredicateResultNegative
    | 5 =>
      match leftVal, rightVal with
      | .float l, .float r =>
        if F64.le l r then PredicateResultPositive else PredicateResultNegative
      | _, _ => PredicateResultNegative
    | _ => PredicateResultNegative

/-- `operatorPredicate.QueryText` from `predicate.go`: sequential buffer
writes — the left operand's text when non-nil, a space, the operator symbol
(the switch has no default: an unhandled operator writes nothing), then a
space and the right operand's text when the right operand is non-nil. -/
def operatorPredicate.QueryText (p : operatorPredicate) : String :=
  let s := match p.left with
    | some l => l.QueryText
    | none => ""
  let s := s ++ " "
  let s := s ++ (match p.op with
    | 0 => "=="
    | 1 => "!="
    | 2 => ">"
    | 3 => "<"
    | 4 => ">="
    | 5 => "<="
    | _ => "")
  match p.right with
  | some r => s ++ " " ++ r.QueryText
  | none => s

/-- `operatorPredicate.usedAliases` from `predicate.go`: start from the
empty list and append the left operand's aliases, then the right operand's,
skipping nil operands. -/
def operatorPredicate.usedAliases (p : operatorPredicate) : List String :=
  let result : List String := []
  let result := match p.left with
    | some l => result ++ l.usedAliases
    | none => result
  let result := match p.right with
    | some r => result ++ r.usedAliases
    | none => result
  result

/-- Modelled from the spec: the resolution contract every value expression
implementation satisfies (§4.1) — when every alias the expression reads is
absent from the binding, resolution fails with the distinguished
event-not-found condition if the expression reads at least one alias, and
succeeds if it reads none (the only other failure kind, a type mismatch
while extracting a field, requires a successfully looked-up event). -/
def valueContract (v : value) : Prop :=
  ∀ evs : CapturedEvents,
    (∀ a ∈ v.usedAliases, CapturedEvents.find evs a = none) →
    (v.usedAliases ≠ [] → v.Value evs = Except.error ErrEventNotFound) ∧
    (v.usedAliases = [] → ∃ x, v.Value evs = Except.ok x)

/-- A literal value expression resolving to the float 5. -/
def litFive : value :=
  { Value := fun _ => Except.ok (GoValue.float (F64.fin 5))
    QueryText := "5"
    usedAliases := [] }

/-- A literal value expression resolving to the float 3. -/
def litThree : value :=
  { Value := fun _ => Except.ok (GoValue.float (F64.fin 3))
    QueryText := "3"
    usedAliases := [] }

/-- A literal value expression resolving to the float 5, rendered
differently. -/
def litFiveAlt : value :=
  { Value := fun _ => Except.ok (GoValue.float (F64.fin 5))
    QueryText := "five"
    usedAliases := [] }

/-- A literal value expression resolving to a string. -/
def litStr : value :=
  { Value := fun _ => Except.ok (GoValue.str "ten")
    QueryText := "ten"
    usedAliases := [] }

/-- A literal value expression resolving to the float NaN. -/
def litNaN : value :=
  { Value := fun _ => Except.ok (GoValue.float F64.nan)
    QueryText := "NaN"
    usedAliases := [] }

/-- A value expression whose resolution always fails with a generic
(non-event-not-found) error. -/
def failGeneric : value :=
  { Value := fun _ => Except.error (EvalError.generic "boom")
    QueryText := "bad"
    usedAliases := [] }

/-- A value expression whose resolution always fails with the distinguished
event-not-found error. -/
def failNotFound : value :=
  { Value := fun _ => Except.error ErrEventNotFound
    QueryText := "b.y"
    usedAliases := [] }

/-- A value expression reading alias `a`: it fails with event-not-found
while `a` is unbound and resolves once `a` is bound. -/
def attrA : value :=
  { Value := fun evs =>
      match CapturedEvents.find evs "a" with
      | none => Except.error ErrEventNotFound
      | some _ => Except.ok GoValue.null
    QueryText := "a.x"
    usedAliases := ["a"] }

/-! ### Helper lemmas -/

/-- String append is associative. -/
theorem strAppendAssoc (a b c : String) : a ++ b ++ c = a ++ (b ++ c) :=
  String.ext (by simp [String.data_append])

/-- Appending the empty string on the right is the identity. -/
theorem strAppendEmpty (a : String) : a ++ "" = a :=
  String.ext (by simp [String.data_append])

/-- IEEE float equality implies equality of comparison classes. -/
theorem f64_eq_of_beq (a b : F64) (h : F64.beq a b = true) : a = b := by
  cases a <;> cases b <;> simp_all [F64.beq]

/-- Every IEEE comparison involving a NaN operand is false. -/
theorem f64_nan_all_false (a b : F64) (h : a.isNaN = true ∨ b.isNaN = true) :
    F64.lt a b = false ∧ F64.gt a b = false ∧ F64.ge a b = false ∧
    F64.le a b = false ∧ F64.beq a b = false := by
  rcases h with h | h <;> cases a <;> cases b <;>
    simp_all [F64.isNaN, F64.lt, F64.gt, F64.ge, F64.le, F64.beq]

/-- For non-NaN floats exactly one of `>`, `<`, `==` holds. -/
theorem f64_trichotomy (a b : F64) (ha : a.isNaN = false) (hb : b.isNaN = false) :
    (F64.gt a b = true ∧ F64.lt a b = false ∧ F64.beq a b = false) ∨
    (F64.gt a b = false ∧ F64.lt a b = true ∧ F64.beq a b = false) ∨
    (F64.gt a b = false ∧ F64.lt a b = false ∧ F64.beq a b = true) := by
  cases a <;> cases b <;>
    simp_all [F64.isNaN, F64.lt, F64.gt, F64.beq]
  rename_i qa qb
  rcases lt_trichotomy qa qb with h | h | h
  · exact Or.inr (Or.inl ⟨by simpa using not_lt.2 h.le, h, by simpa using h.ne⟩)
  · exact Or.inr (Or.inr ⟨by simp [h], by simp [h], by simp [h]⟩)
  · exact Or.inl ⟨h, by simpa using not_lt.2 h.le, by simpa using h.ne.symm⟩

/-- A value without NaN components is deeply equal to itself. -/
theorem deepEqual_refl_of_not_hasNaN (v : GoValue) (h : v.hasNaN = false) :
    deepEqual v v = true := by
  induction v with
  | null => rfl
  | float f => cases f <;> simp_all [GoValue.hasNaN, F64.isNaN, deepEqual, F64.beq]
  | str s => simp [deepEqual]
  | boolean b => simp [deepEqual]
  | arr hd tl ih₁ ih₂ =>
    simp only [GoValue.hasNaN, Bool.or_eq_false_iff] at h
    simp [deepEqual, ih₁ h.1, ih₂ h.2]

/-- Deep equality implies equality of modelled values. -/
theorem eq_of_deepEqual (v w : GoValue) : deepEqual v w = true → v = w := by
  induction v generalizing w with
  | null => intro h; cases w <;> simp_all [deepEqual]
  | float f =>
    intro h; cases w <;> simp_all [deepEqual]
    exact f64_eq_of_beq _ _ h
  | str s => intro h; cases w <;> simp_all [deepEqual]
  | boolean b => intro h; cases w <;> simp_all [deepEqual]
  | arr hd tl ih₁ ih₂ =>
    intro h; cases w <;> simp_all [deepEqual]
    exact ⟨ih₁ _ h.1, ih₂ _ h.2⟩

/-- Distinct modelled values are never deeply equal. -/
theorem deepEqual_eq_false_of_ne (v w : GoValue) (h : v ≠ w) :
    deepEqual v w = false := by
  cases hd : deepEqual v w
  · rfl
  · exact absurd (eq_of_deepEqual v w hd) h

/-- If the left operand fails with event-not-found, or the left operand
resolves and the right fails with event-not-found, evaluation is
`Uncertain`. -/
theorem evaluate_uncertain_of_enf (l r : value) (o : op) (evs : CapturedEvents)
    (h : l.Value evs = Except.error ErrEventNotFound ∨
      (∃ x, l.Value evs = Except.ok x ∧ r.Value evs = Except.error ErrEventNotFound)) :
    (operatorPredicate.mk (some l) (some r) o).Evaluate evs = PredicateResultUncertain := by
  rcases h with h | ⟨x, hx, hxe⟩ <;>
    simp [operatorPredicate.Evaluate, leftRightVals, ErrEventNotFound, *]

/-! ### Claim theorems -/

/-- C2: if operand resolution fails for any reason other than the
event-not-found error, `Evaluate` returns `Negative`; and a nil operand (on
either side) is reported by `leftRightVals` as the generic evaluation error
"Left and right must not be nil". -/
theorem c2_non_enf_failure_negative :
    (∀ (p : operatorPredicate) (evs : CapturedEvents) (e : EvalError),
      leftRightVals evs p.left p.right = Except.error e → e ≠ ErrEventNotFound →
      p.Evaluate evs = PredicateResultNegative) ∧
    (∀ (evs : CapturedEvents) (l r : Option value), l = none ∨ r = none →
      leftRightVals evs l r
        = Except.error (EvalError.generic "Left and right must not be nil")) := by
  constructor
  · intro p evs e h hne
    cases e with
    | eventNotFound => exact absurd rfl hne
    | generic msg => simp [operatorPredicate.Evaluate, h]
  · intro evs l r h
    rcases h with h | h <;> subst h
    · cases r <;> rfl
    · cases l <;> rfl

/-- C2 witness: a predicate with a nil left operand evaluates to `Negative`
on the empty binding. -/
theorem c2_witness :
    (operatorPredicate.mk none (some litFive) opEq).Evaluate [] = PredicateResultNegative :=
  c2_non_enf_failure_negative.1 (operatorPredicate.mk none (some litFive) opEq) []
    (EvalError.generic "Left and right must not be nil")
    (c2_non_enf_failure_negative.2 [] none (some litFive) (Or.inl rfl))
    (by decide)

/-- C8: `usedAliases` of an operator predicate is the left operand's alias
list followed by the right operand's, a nil operand contributing nothing. -/
theorem c8_usedaliases_concat :
    ∀ (l r : value) (o : op),
      (operatorPredicate.mk (some l) (some r) o).usedAliases
        = l.usedAliases ++ r.usedAliases ∧
      (operatorPredicate.mk none (some r) o).usedAliases = r.usedAliases ∧
      (operatorPredicate.mk (some l) none o).usedAliases = l.usedAliases ∧
      (operatorPredicate.mk none none o).usedAliases = ([] : List String) :=
  fun _ _ _ => ⟨rfl, rfl, rfl, rfl⟩

/-- C9: evaluation is a pure function of the predicate's operator and of
what operand resolution yields on the binding snapshot — two evaluations
agreeing on those agree on the result (in particular, re-evaluating the
same predicate against the same snapshot always returns the same result). -/
theorem c9_evaluation_pure :
    ∀ (p₁ p₂ : operatorPredicate) (evs₁ evs₂ : CapturedEvents),
      p₁.op = p₂.op →
      leftRightVals evs₁ p₁.left p₁.right = leftRightVals evs₂ p₂.left p₂.right →
      p₁.Evaluate evs₁ = p₂.Evaluate evs₂ := by
  intro p₁ p₂ evs₁ evs₂ hop hres
  unfold operatorPredicate.Evaluate
  rw [hres, hop]

/-- C9 witness: two structurally different predicates with the same
operator, resolving identically against different snapshots, evaluate
identically. -/
theorem c9_witness :
    (operatorPredicate.mk (some litFive) (some litFive) opEq).Evaluate []
      = (operatorPredicate.mk (some litFiveAlt) (some litFiveAlt) opEq).Evaluate
          [("a", [])] :=
  c9_evaluation_pure (operatorPredicate.mk (some litFive) (some litFive) opEq)
    (operatorPredicate.mk (some litFiveAlt) (some litFiveAlt) opEq)
    [] [("a", [])] rfl rfl

/-- C10: operand resolution is left-first with the first failure deciding
the outcome — when the left operand fails, the result is independent of the
right operand, `Uncertain` exactly when the left error is the
event-not-found error and `Negative` for every other left error. -/
theorem c10_left_first_short_circuit :
    ∀ (l r r' : value) (o : op) (evs : CapturedEvents) (e : EvalError),
      l.Value evs = Except.error e →
      ((operatorPredicate.mk (some l) (some r) o).Evaluate evs
        = (operatorPredicate.mk (some l) (some r') o).Evaluate evs) ∧
      (e = ErrEventNotFound →
        (operatorPredicate.mk (some l) (some r) o).Evaluate evs
          = PredicateResultUncertain) ∧
      (e ≠ ErrEventNotFound →
        (operatorPredicate.mk (some l) (some r) o).Evaluate evs
          = PredicateResultNegative) := by
  intro l r r' o evs e h
  refine ⟨?_, ?_, ?_⟩
  · cases e <;> simp [operatorPredicate.Evaluate, leftRightVals, h]
  · intro he
    subst he
    simp [operatorPredicate.Evaluate, leftRightVals, h, ErrEventNotFound]
  · intro hne
    cases e with
    | eventNotFound => exact absurd rfl hne
    | generic msg => simp [operatorPredicate.Evaluate, leftRightVals, h]

/-- C10 witness: a generically failing left operand yields `Negative`
regardless of the right operand referring to an unbound alias. -/
theorem c10_witness :
    (operatorPredicate.mk (some failGeneric) (some failNotFound) opLt).Evaluate []
      = PredicateResultNegative :=
  (c10_left_first_short_circuit failGeneric failNotFound litThree opLt []
    (EvalError.generic "boom") rfl).2.2 (by decide)

/-- C1 counterexample: both operands are non-nil and the right operand's
resolution fails with the distinguished event-not-found error, yet
`Evaluate` returns `Negative`, not `Uncertain` — because the left operand's
generic failure is encountered first. -/
theorem c1_counterexample :
    failNotFound.Value [] = Except.error ErrEventNotFound ∧
    failGeneric.Value [] = Except.error (EvalError.generic "boom") ∧
    (operatorPredicate.mk (some failGeneric) (some failNotFound) opEq).Evaluate []
      = PredicateResultNegative ∧
    PredicateResultNegative ≠ PredicateResultUncertain :=
  ⟨rfl, rfl, rfl, by decide⟩

/-- C1 (amended): for non-nil operands, if the left operand's resolution
fails with the event-not-found error, or the left operand resolves
successfully and the right operand's resolution fails with the
event-not-found error, then `Evaluate` returns `Uncertain`. -/
theorem c1_enf_failure_uncertain :
    ∀ (p : operatorPredicate) (l r : value) (evs : CapturedEvents),
      p.left = some l → p.right = some r →
      (l.Value evs = Except.error ErrEventNotFound ∨
        (∃ x, l.Value evs = Except.ok x ∧
          r.Value evs = Except.error ErrEventNotFound)) →
      p.Evaluate evs = PredicateResultUncertain := by
  intro p l r evs hl hr h
  obtain ⟨pl, pr, po⟩ := p
  cases hl
  cases hr
  exact evaluate_uncertain_of_enf l r po evs h

/-- C1 witness: a left operand referring to an unbound alias yields
`Uncertain`. -/
theorem c1_witness :
    (operatorPredicate.mk (some failNotFound) (some litFive) opEq).Evaluate []
      = PredicateResultUncertain :=
  c1_enf_failure_uncertain (operatorPredicate.mk (some failNotFound) (some litFive) opEq)
    failNotFound litFive [] rfl rfl (Or.inl rfl)

/-- C4 counterexample: both operands resolve successfully to the same value
(the float NaN), yet the equality predicate evaluates to `Negative`, not
`Positive` — `reflect.DeepEqual` compares floats with IEEE `==`, under
which NaN is unequal to itself. -/
theorem c4_counterexample :
    leftRightVals [] (some litNaN) (some litNaN)
      = Except.ok (GoValue.float F64.nan, GoValue.float F64.nan) ∧
    (operatorPredicate.mk (some litNaN) (some litNaN) opEq).Evaluate []
      = PredicateResultNegative ∧
    PredicateResultNegative ≠ PredicateResultPositive :=
  ⟨rfl, rfl, by decide⟩

/-- C4 (amended): with both operands resolving successfully, `v == v` is
`Positive` for every value `v` containing no NaN component; and for
structurally distinct values `v₁`, `v₂`, `v₁ == v₂` is `Negative` and
`v₁ != v₂` is `Positive`, independent of the values' kinds. -/
theorem c4_structural_equality :
    ∀ (p : operatorPredicate) (evs : CapturedEvents) (v₁ v₂ : GoValue),
      leftRightVals evs p.left p.right = Except.ok (v₁, v₂) →
      (p.op = opEq → v₁ = v₂ → v₁.hasNaN = false →
        p.Evaluate evs = PredicateResultPositive) ∧
      (p.op = opEq → v₁ ≠ v₂ → p.Evaluate evs = PredicateResultNegative) ∧
      (p.op = opNe → v₁ ≠ v₂ → p.Evaluate evs = PredicateResultPositive) := by
  intro p evs v₁ v₂ hres
  refine ⟨?_, ?_, ?_⟩
  · intro hop hv hn
    subst hv
    unfold operatorPredicate.Evaluate
    rw [hres, hop]
    simp [opEq, deepEqual_refl_of_not_hasNaN v₁ hn]
  · intro hop hv
    unfold operatorPredicate.Evaluate
    rw [hres, hop]
    simp [opEq, deepEqual_eq_false_of_ne v₁ v₂ hv]
  · intro hop hv
    unfold operatorPredicate.Evaluate
    rw [hres, hop]
    simp [opNe, deepEqual_eq_false_of_ne v₁ v₂ hv]

/-- C4 witness: `3 == 3` is `Positive`, `5 == 3` is `Negative`. -/
theorem c4_witness :
    (operatorPredicate.mk (some litThree) (some litThree) opEq).Evaluate []
      = PredicateResultPositive ∧
    (operatorPredicate.mk (some litFive) (some litThree) opEq).Evaluate []
      = PredicateResultNegative :=
  ⟨(c4_structural_equality (operatorPredicate.mk (some litThree) (some litThree) opEq)
      [] (GoValue.float (F64.fin 3)) (GoValue.float (F64.fin 3)) rfl).1 rfl rfl rfl,
   (c4_structural_equality (operatorPredicate.mk (some litFive) (some litThree) opEq)
      [] (GoValue.float (F64.fin 5)) (GoValue.float (F64.fin 3)) rfl).2.1 rfl (by decide)⟩

/-- C5 counterexample: a predicate over two literals uses no aliases, so
every alias in `usedAliases` is (vacuously) absent from the empty binding,
yet `Evaluate` returns `Positive`, not `Uncertain`. -/
theorem c5_counterexample :
    (operatorPredicate.mk (some litFive) (some litFive) opEq).usedAliases = [] ∧
    (operatorPredicate.mk (some litFive) (some litFive) opEq).Evaluate []
      = PredicateResultPositive ∧
    PredicateResultPositive ≠ PredicateResultUncertain :=
  ⟨rfl, rfl, by decide⟩

/-- C5 (amended): for a predicate with non-nil operands satisfying the
value-resolution contract, if `usedAliases` is nonempty and every alias in
it is absent from the binding, `Evaluate` returns `Uncertain`. -/
theorem c5_absent_aliases_uncertain :
    ∀ (p : operatorPredicate) (l r : value) (evs : CapturedEvents),
      p.left = some l → p.right = some r →
      valueContract l → valueContract r →
      p.usedAliases ≠ [] →
      (∀ a ∈ p.usedAliases, CapturedEvents.find evs a = none) →
      p.Evaluate evs = PredicateResultUncertain := by
  intro p l r evs hl hr hcl hcr hne habs
  obtain ⟨pl, pr, po⟩ := p
  cases hl
  cases hr
  have hconcat : (operatorPredicate.mk (some l) (some r) po).usedAliases
      = l.usedAliases ++ r.usedAliases := rfl
  rw [hconcat] at hne habs
  have habsl : ∀ a ∈ l.usedAliases, CapturedEvents.find evs a = none := by
    intro a ha
    exact habs a (List.mem_append_left _ ha)
  have habsr : ∀ a ∈ r.usedAliases, CapturedEvents.find evs a = none := by
    intro a ha
    exact habs a (List.mem_append_right _ ha)
  by_cases hle : l.usedAliases = []
  · have hre : r.usedAliases ≠ [] := by
      intro hr0
      exact hne (by rw [hle, hr0]; rfl)
    obtain ⟨x, hx⟩ := (hcl evs habsl).2 hle
    have hrv := (hcr evs habsr).1 hre
    exact evaluate_uncertain_of_enf l r po evs (Or.inr ⟨x, hx, hrv⟩)
  · have hlv := (hcl evs habsl).1 hle
    exact evaluate_uncertain_of_enf l r po evs (Or.inl hlv)

/-- The alias-reading value expression `attrA` satisfies the resolution
contract. -/
theorem attrA_contract : valueContract attrA := by
  intro evs habs
  constructor
  · intro _
    have h := habs "a" (by simp [attrA])
    simp [attrA, h]
  · intro h
    simp [attrA] at h

/-- C5 witness: a predicate reading only the unbound alias `a` evaluates to
`Uncertain` on the empty binding. -/
theorem c5_witness :
    (operatorPredicate.mk (some attrA) (some attrA) opGt).Evaluate []
      = PredicateResultUncertain :=
  c5_absent_aliases_uncertain (operatorPredicate.mk (some attrA) (some attrA) opGt)
    attrA attrA [] rfl rfl attrA_contract attrA_contract (by decide) (by decide)

/-- For an ordering operator, either both resolved operands are floats or
the evaluation is `Negative`. -/
theorem evaluate_ordering_cases (p : operatorPredicate) (evs : CapturedEvents)
    (v₁ v₂ : GoValue)
    (hop : p.op = opGt ∨ p.op = opLt ∨ p.op = opGe ∨ p.op = opLe)
    (hres : leftRightVals evs p.left p.right = Except.ok (v₁, v₂)) :
    (∃ a b, v₁ = GoValue.float a ∧ v₂ = GoValue.float b) ∨
      p.Evaluate evs = PredicateResultNegative := by
  cases v₁ <;> cases v₂ <;>
    first
      | exact Or.inl ⟨_, _, rfl, rfl⟩
      | (refine Or.inr ?_
         unfold operatorPredicate.Evaluate
         rw [hres]
         rcases hop with h | h | h | h <;> rw [h] <;> rfl)

/-- C3: for an ordering operator with both operands resolving successfully,
`Positive` requires both resolved values to be floats, and any non-float
operand forces `Negative`. -/
theorem c3_ordering_requires_floats :
    ∀ (p : operatorPredicate) (evs : CapturedEvents) (v₁ v₂ : GoValue),
      (p.op = opGt ∨ p.op = opLt ∨ p.op = opGe ∨ p.op = opLe) →
      leftRightVals evs p.left p.right = Except.ok (v₁, v₂) →
      (p.Evaluate evs = PredicateResultPositive →
        (∃ a, v₁ = GoValue.float a) ∧ (∃ b, v₂ = GoValue.float b)) ∧
      ((∀ a, v₁ ≠ GoValue.float a) ∨ (∀ b, v₂ ≠ GoValue.float b) →
        p.Evaluate evs = PredicateResultNegative) := by
  intro p evs v₁ v₂ hop hres
  rcases evaluate_ordering_cases p evs v₁ v₂ hop hres with ⟨a, b, ha, hb⟩ | hneg
  · subst ha
    subst hb
    refine ⟨fun _ => ⟨⟨a, rfl⟩, ⟨b, rfl⟩⟩, ?_⟩
    rintro (h | h)
    · exact absurd rfl (h a)
    · exact absurd rfl (h b)
  · constructor
    · intro hpos
      rw [hneg] at hpos
      exact absurd hpos (by decide)
    · intro _
      exact hneg

/-- C3 witness: comparing a string against a float with `>` yields
`Negative`. -/
theorem c3_witness :
    (operatorPredicate.mk (some litStr) (some litFive) opGt).Evaluate []
      = PredicateResultNegative :=
  (c3_ordering_requires_floats (operatorPredicate.mk (some litStr) (some litFive) opGt)
      [] (GoValue.str "ten") (GoValue.float (F64.fin 5)) (Or.inl rfl) rfl).2
    (Or.inl fun _ h => GoValue.noConfusion h)

/-- C6: for float operands, exactly one of `>`, `<`, `==` is `Positive`
unless an operand is NaN, in which case every ordering operator is
`Negative`. -/
theorem c6_ordering_mutually_consistent :
    ∀ (l r : Option value) (evs : CapturedEvents) (a b : F64),
      leftRightVals evs l r = Except.ok (GoValue.float a, GoValue.float b) →
      (a.isNaN = false → b.isNaN = false →
        (((operatorPredicate.mk l r opGt).Evaluate evs = PredicateResultPositive ∧
          (operatorPredicate.mk l r opLt).Evaluate evs = PredicateResultNegative ∧
          (operatorPredicate.mk l r opEq).Evaluate evs = PredicateResultNegative) ∨
         ((operatorPredicate.mk l r opGt).Evaluate evs = PredicateResultNegative ∧
          (operatorPredicate.mk l r opLt).Evaluate evs = PredicateResultPositive ∧
          (operatorPredicate.mk l r opEq).Evaluate evs = PredicateResultNegative) ∨
         ((operatorPredicate.mk l r opGt).Evaluate evs = PredicateResultNegative ∧
          (operatorPredicate.mk l r opLt).Evaluate evs = PredicateResultNegative ∧
          (operatorPredicate.mk l r opEq).Evaluate evs = PredicateResultPositive))) ∧
      ((a.isNaN = true ∨ b.isNaN = true) →
        (operatorPredicate.mk l r opGt).Evaluate evs = PredicateResultNegative ∧
        (operatorPredicate.mk l r opLt).Evaluate evs = PredicateResultNegative ∧
        (operatorPredicate.mk l r opGe).Evaluate evs = PredicateResultNegative ∧
        (operatorPredicate.mk l r opLe).Evaluate evs = PredicateResultNegative) := by
  intro l r evs a b hres
  have hgt : (operatorPredicate.mk l r opGt).Evaluate evs
      = (if F64.gt a b then PredicateResultPositive else PredicateResultNegative) := by
    unfold operatorPredicate.Evaluate
    rw [hres]
    rfl
  have hlt : (operatorPredicate.mk l r opLt).Evaluate evs
      = (if F64.lt a b then PredicateResultPositive else PredicateResultNegative) := by
    unfold operatorPredicate.Evaluate
    rw [hres]
    rfl
  have hge : (operatorPredicate.mk l r opGe).Evaluate evs
      = (if F64.ge a b then PredicateResultPositive else PredicateResultNegative) := by
    unfold operatorPredicate.Evaluate
    rw [hres]
    rfl
  have hle : (operatorPredicate.mk l r opLe).Evaluate evs
      = (if F64.le a b then PredicateResultPositive else PredicateResultNegative) := by
    unfold operatorPredicate.Evaluate
    rw [hres]
    rfl
  have heq : (operatorPredicate.mk l r opEq).Evaluate evs
      = (if F64.beq a b then PredicateResultPositive else PredicateResultNegative) := by
    unfold operatorPredicate.Evaluate
    rw [hres]
    rfl
  constructor
  · intro ha hb
    rcases f64_trichotomy a b ha hb with ⟨h₁, h₂, h₃⟩ | ⟨h₁, h₂, h₃⟩ | ⟨h₁, h₂, h₃⟩
    · exact Or.inl ⟨by simp [hgt, h₁], by simp [hlt, h₂], by simp [heq, h₃]⟩
    · exact Or.inr (Or.inl ⟨by simp [hgt, h₁], by simp [hlt, h₂], by simp [heq, h₃]⟩)
    · exact Or.inr (Or.inr ⟨by simp [hgt, h₁], by simp [hlt, h₂], by simp [heq, h₃]⟩)
  · intro h
    obtain ⟨hltf, hgtf, hgef, hlef, _⟩ := f64_nan_all_false a b h
    exact ⟨by simp [hgt, hgtf], by simp [hlt, hltf],
      by simp [hge, hgef], by simp [hle, hlef]⟩

/-- C6 witness: on the floats 5 and 3, exactly one of `>`, `<`, `==` is
`Positive` (namely `>`). -/
theorem c6_witness :
    ((operatorPredicate.mk (some litFive) (some litThree) opGt).Evaluate []
        = PredicateResultPositive ∧
      (operatorPredicate.mk (some litFive) (some litThree) opLt).Evaluate []
        = PredicateResultNegative ∧
      (operatorPredicate.mk (some litFive) (some litThree) opEq).Evaluate []
        = PredicateResultNegative) ∨
    ((operatorPredicate.mk (some litFive) (some litThree) opGt).Evaluate []
        = PredicateResultNegative ∧
      (operatorPredicate.mk (some litFive) (some litThree) opLt).Evaluate []
        = PredicateResultPositive ∧
      (operatorPredicate.mk (some litFive) (some litThree) opEq).Evaluate []
        = PredicateResultNegative) ∨
    ((operatorPredicate.mk (some litFive) (some litThree) opGt).Evaluate []
        = PredicateResultNegative ∧
      (operatorPredicate.mk (some litFive) (some litThree) opLt).Evaluate []
        = PredicateResultNegative ∧
      (operatorPredicate.mk (some litFive) (some litThree) opEq).Evaluate []
        = PredicateResultPositive) :=
  (c6_ordering_mutually_consistent (some litFive) (some litThree) []
    (F64.fin 5) (F64.fin 3) rfl).1 rfl rfl

/-- C7: `QueryText` renders left text, a space, the operator's canonical
symbol, a space, right text; a nil operand's text is omitted (a nil right
operand also drops its separating space); the symbol always appears in the
output. -/
theorem c7_querytext_sections :
    ∀ (left right : Option value) (o : op) (sym : String),
      ((o = opEq ∧ sym = "==") ∨ (o = opNe ∧ sym = "!=") ∨
       (o = opGt ∧ sym = ">") ∨ (o = opLt ∧ sym = "<") ∨
       (o = opGe ∧ sym = ">=") ∨ (o = opLe ∧ sym = "<=")) →
      (∀ l r, left = some l → right = some r →
        (operatorPredicate.mk left right o).QueryText
          = l.QueryText ++ " " ++ sym ++ " " ++ r.QueryText) ∧
      (∀ l, left = some l → right = none →
        (operatorPredicate.mk left right o).QueryText = l.QueryText ++ " " ++ sym) ∧
      (∀ r, left = none → right = some r →
        (operatorPredicate.mk left right o).QueryText
          = " " ++ sym ++ " " ++ r.QueryText) ∧
      (left = none → right = none →
        (operatorPredicate.mk left right o).QueryText = " " ++ sym) ∧
      (∃ s t : String, (operatorPredicate.mk left right o).QueryText
        = s ++ sym ++ t) := by
  intro left right o sym hsym
  rcases hsym with ⟨ho, hs⟩ | ⟨ho, hs⟩ | ⟨ho, hs⟩ | ⟨ho, hs⟩ | ⟨ho, hs⟩ | ⟨ho, hs⟩ <;>
    subst ho <;> subst hs <;>
    refine ⟨fun l r hl hr => by subst hl; subst hr; rfl,
      fun l hl hr => by subst hl; subst hr; rfl,
      fun r hl hr => by subst hl; subst hr; rfl,
      fun hl hr => by subst hl; subst hr; rfl, ?_⟩ <;>
    cases left <;> cases right <;>
    first
      | exact ⟨" ", "", (strAppendEmpty _).symm⟩
      | (rename_i r
         exact ⟨" ", " " ++ r.QueryText, strAppendAssoc _ _ _⟩)
      | (rename_i l
         exact ⟨l.QueryText ++ " ", "", (strAppendEmpty _).symm⟩)
      | (rename_i l r
         exact ⟨l.QueryText ++ " ", " " ++ r.QueryText, strAppendAssoc _ _ _⟩)

/-- C7 witness: a predicate with a nil right operand renders as the left
text, a space, and the operator symbol only. -/
theorem c7_witness :
    (operatorPredicate.mk (some litFive) none opGe).QueryText = "5" ++ " " ++ ">=" :=
  (c7_querytext_sections (some litFive) none opGe ">="
      (Or.inr (Or.inr (Or.inr (Or.inr (Or.inl ⟨rfl, rfl⟩)))))).2.1 litFive rfl rfl

end Sase
